import Mathlib

/-!
Verification of the CloudIPAtlas address-aggregation engine and orchestrator.

The Python source (src/collectors_ips/ip_utils.py, src/main.py, and the
collector modules) is shallowly embedded here.  Python strings are Lean
`String`s; character-level processing works on `String.data` (`List Char`).
The standard-library `ipaddress.ip_network(s, strict=False)` calls made by
ip_utils are embedded by `ipNetwork` below, following CPython's
`_ip_int_from_string` / `_parse_octet` / `_parse_hextet` logic for address
literals with an optional decimal prefix length (the only form the
collectors produce; dotted-netmask arguments are not modelled).  A raised
`ValueError` is embedded as `none`.
-/

/-- Python `str.split(sep)` for a one-character separator: always returns
at least one (possibly empty) part. -/
def pySplit (sep : Char) : List Char → List (List Char)
  | [] => [[]]
  | c :: rest =>
    match pySplit sep rest with
    | [] => [[]]
    | p :: ps => if c = sep then [] :: p :: ps else (c :: p) :: ps

/-- The ASCII whitespace characters removed by Python `str.strip()`. -/
def isPySpace (c : Char) : Bool :=
  c = ' ' || c = '\t' || c = '\n' || c = '\r' || c = '\x0b' || c = '\x0c'

/-- Python `str.strip()`: drop leading and trailing whitespace. -/
def pyStrip (s : List Char) : List Char :=
  ((s.dropWhile isPySpace).reverse.dropWhile isPySpace).reverse

/-- Decimal value of a digit string (callers check all-digits first). -/
def digitsToNat (s : List Char) : Nat :=
  s.foldl (fun a c => a * 10 + (c.toNat - 48)) 0

/-- CPython `IPv4Address._parse_octet`: non-empty, all ASCII digits, at most
3 characters, no leading zero (unless the octet is exactly "0"), value at
most 255. -/
def parseOctet (s : List Char) : Option Nat :=
  if s = [] then none
  else if !(s.all Char.isDigit) then none
  else if s.length > 3 then none
  else if s.length > 1 && s.headD 'x' = '0' then none
  else
    let v := digitsToNat s
    if v > 255 then none else some v

/-- CPython `IPv4Address._ip_int_from_string`: exactly four octets
separated by dots. -/
def parseIPv4Chars (s : List Char) : Option Nat :=
  match pySplit '.' s with
  | [a, b, c, d] =>
    match parseOctet a, parseOctet b, parseOctet c, parseOctet d with
    | some x, some y, some z, some w => some (((x * 256 + y) * 256 + z) * 256 + w)
    | _, _, _, _ => none
  | _ => none

/-- ASCII hexadecimal digit test (the `[0-9A-Fa-f]` class of CPython's
hextet regex). -/
def isHexDigitChar (c : Char) : Bool :=
  c.isDigit || ('a' ≤ c && c ≤ 'f') || ('A' ≤ c && c ≤ 'F')

/-- Value of one hexadecimal digit. -/
def hexDigitVal (c : Char) : Nat :=
  if c.isDigit then c.toNat - 48
  else if 'a' ≤ c && c ≤ 'f' then c.toNat - 87
  else c.toNat - 55

/-- CPython `IPv6Address._parse_hextet`: one to four hexadecimal digits. -/
def parseHextet (s : List Char) : Option Nat :=
  if s = [] then none
  else if !(s.all isHexDigitChar) then none
  else if s.length > 4 then none
  else some (s.foldl (fun a c => a * 16 + hexDigitVal c) 0)

/-- Accumulate consecutive hextets, shifting 16 bits at each step, as the
`ip_int << 16 | hextet` loops of `IPv6Address._ip_int_from_string` do. -/
def foldHextets (ps : List (List Char)) : Option Nat :=
  ps.foldl (fun acc p =>
    match acc, parseHextet p with
    | some a, some h => some (a * 65536 + h)
    | _, _ => none) (some 0)

/-- If the last colon-separated part contains a dot, parse it as an
embedded IPv4 address and replace it by its two hextets (CPython rewrites
`parts[-1]` with `'%x'` formatting; `Nat.toDigits 16` produces the same
lowercase hex digits). -/
def convertV4Suffix (parts : List (List Char)) : Option (List (List Char)) :=
  match parts.getLast? with
  | none => none
  | some lastPart =>
    if '.' ∈ lastPart then
      match parseIPv4Chars lastPart with
      | none => none
      | some v4 =>
        some (parts.dropLast ++ [Nat.toDigits 16 (v4 / 65536), Nat.toDigits 16 (v4 % 65536)])
    else some parts

/-- Indices `i` with `1 <= i <= len-2` whose part is empty: the candidate
positions of a `::` compression (CPython's `skip_index` scan). -/
def interiorEmptyIdxs (parts : List (List Char)) : List Nat :=
  (List.range parts.length).filter
    (fun i => decide (1 ≤ i) && decide (i + 1 < parts.length) && decide (parts.getD i ['x'] = []))

/-- The hextet-assembly stage of `IPv6Address._ip_int_from_string`: at most
one `::`, a leading or trailing `:` only as part of a `::`, exactly eight
hextets without a `::`, at least one zero-group skipped with one. -/
def v6Assemble (parts : List (List Char)) : Option Nat :=
  match interiorEmptyIdxs parts with
  | [] =>
    if parts.length ≠ 8 then none
    else if parts.headD ['x'] = [] then none
    else if parts.getLastD ['x'] = [] then none
    else foldHextets parts
  | [i] =>
    let n := parts.length
    let hi0 := i
    let lo0 := n - i - 1
    match (if parts.headD ['x'] = [] then (if hi0 - 1 = 0 then some (hi0 - 1) else none) else some hi0) with
    | none => none
    | some hi =>
      match (if parts.getLastD ['x'] = [] then (if lo0 - 1 = 0 then some (lo0 - 1) else none) else some lo0) with
      | none => none
      | some lo =>
        if 8 ≤ hi + lo then none
        else
          match foldHextets (parts.take hi), foldHextets (parts.drop (n - lo)) with
          | some hiVal, some loVal => some (hiVal * 65536 ^ ((8 - (hi + lo)) + lo) + loVal)
          | _, _ => none
  | _ => none

/-- CPython `IPv6Address._ip_int_from_string`: non-empty, at least three
colon-separated parts, optional embedded IPv4 suffix, at most nine parts. -/
def parseIPv6Chars (s : List Char) : Option Nat :=
  if s = [] then none
  else
    let parts := pySplit ':' s
    if parts.length < 3 then none
    else
      match convertV4Suffix parts with
      | none => none
      | some ps => if ps.length > 9 then none else v6Assemble ps

/-- CPython `_prefix_from_prefix_string`: all ASCII digits and at most the
family's maximum prefix length. -/
def parsePlen (maxLen : Nat) (s : List Char) : Option Nat :=
  if s = [] then none
  else if !(s.all Char.isDigit) then none
  else
    let v := digitsToNat s
    if v ≤ maxLen then some v else none

/-- A parsed `ipaddress` network object: family flag, network address (an
integer with host bits already masked, as `strict=False` does), and prefix
length. -/
structure Net where
  isV6 : Bool
  addr : Nat
  plen : Nat
deriving Repr, DecidableEq

/-- Bit width of the address family. -/
def Net.bits (n : Net) : Nat := if n.isV6 then 128 else 32

/-- `num_addresses = broadcast - network + 1 = 2^(bits - plen)`. -/
def Net.numAddresses (n : Net) : Nat := 2 ^ (n.bits - n.plen)

/-- Build a network with host bits masked off (`strict=False` semantics:
`network_address = ip & mask`). -/
def mkNet (v6 : Bool) (ip pl : Nat) : Net :=
  let bits := if v6 then 128 else 32
  { isV6 := v6, addr := ip / 2 ^ (bits - pl) * 2 ^ (bits - pl), plen := pl }

/-- `IPv4Network(s, strict=False)`: split off an optional `/prefix` (more
than one `/` is an error), parse the address and the decimal prefix. -/
def ipv4Network (s : String) : Option Net :=
  match pySplit '/' s.data with
  | [a] =>
    match parseIPv4Chars a with
    | some ip => some (mkNet false ip 32)
    | none => none
  | [a, p] =>
    match parseIPv4Chars a, parsePlen 32 p with
    | some ip, some pl => some (mkNet false ip pl)
    | _, _ => none
  | _ => none

/-- `IPv6Network(s, strict=False)`. -/
def ipv6Network (s : String) : Option Net :=
  match pySplit '/' s.data with
  | [a] =>
    match parseIPv6Chars a with
    | some ip => some (mkNet true ip 128)
    | none => none
  | [a, p] =>
    match parseIPv6Chars a, parsePlen 128 p with
    | some ip, some pl => some (mkNet true ip pl)
    | _, _ => none
  | _ => none

/-- `ipaddress.ip_network(s, strict=False)`: try IPv4, then IPv6; `none`
embeds the `ValueError` raised when both fail. -/
def ipNetwork (s : String) : Option Net :=
  match ipv4Network s with
  | some n => some n
  | none => ipv6Network s

/-- Membership of address `a` in the network `na/pl` of a `bits`-wide
family. -/
def inNetRange (bits a na pl : Nat) : Bool :=
  decide (a / 2 ^ (bits - pl) = na / 2 ^ (bits - pl))

/-- CPython `_IPv4Constants._private_networks`. -/
def v4PrivateList : List (Nat × Nat) :=
  [(0x00000000, 8), (0x0A000000, 8), (0x7F000000, 8), (0xA9FE0000, 16),
   (0xAC100000, 12), (0xC0000000, 29), (0xC00000AA, 31), (0xC0000200, 24),
   (0xC0A80000, 16), (0xC6120000, 15), (0xC6336400, 24), (0xCB007100, 24),
   (0xF0000000, 4), (0xFFFFFFFF, 32)]

/-- CPython `_IPv4Constants._private_networks_exceptions`. -/
def v4PrivateExcept : List (Nat × Nat) :=
  [(0xC0000009, 32), (0xC000000A, 32)]

/-- CPython `_IPv6Constants._private_networks`. -/
def v6PrivateList : List (Nat × Nat) :=
  [(1, 128), (0, 128), (0xFFFF * 2 ^ 32, 96), (0x100 * 2 ^ 112, 64),
   (0x2001 * 2 ^ 112, 23), ((0x2001 * 2 ^ 16 + 0xDB8) * 2 ^ 96, 32),
   (0x2002 * 2 ^ 112, 16), (0xFC00 * 2 ^ 112, 7), (0xFE80 * 2 ^ 112, 10)]

/-- CPython `_IPv6Constants._private_networks_exceptions`. -/
def v6PrivateExcept : List (Nat × Nat) :=
  [(0x2001 * 2 ^ 112 + 2 ^ 96 + 1, 128), (0x2001 * 2 ^ 112 + 2 ^ 96 + 2, 128),
   (0x2001 * 2 ^ 112 + 3 * 2 ^ 96, 32), (0x2001 * 2 ^ 112 + 4 * 2 ^ 96 + 0x112 * 2 ^ 80, 48),
   (0x2001 * 2 ^ 112 + 0x20 * 2 ^ 96, 28), (0x2001 * 2 ^ 112 + 0x30 * 2 ^ 96, 28)]

/-- CPython address-level `is_private`: inside some private network and
outside every exception. -/
def addrIsPrivate (v6 : Bool) (a : Nat) : Bool :=
  let bits := if v6 then 128 else 32
  let nets := if v6 then v6PrivateList else v4PrivateList
  let excl := if v6 then v6PrivateExcept else v4PrivateExcept
  (nets.any fun p => inNetRange bits a p.1 p.2) && !(excl.any fun p => inNetRange bits a p.1 p.2)

/-- Network-level `is_private`: both the network address and the broadcast
address are private. -/
def Net.isPrivate (n : Net) : Bool :=
  addrIsPrivate n.isV6 n.addr && addrIsPrivate n.isV6 (n.addr + n.numAddresses - 1)

/-- ip_utils.is_ipv6: `isinstance(ip_network(s, strict=False), IPv6Network)`,
`False` on `ValueError`. -/
def is_ipv6 (s : String) : Bool :=
  match ipNetwork s with
  | some n => n.isV6
  | none => false

/-- ip_utils.is_valid_ip: `ip_network(s, strict=False)` succeeds. -/
def is_valid_ip (s : String) : Bool := (ipNetwork s).isSome

/-- ip_utils.is_private_ip: `network.is_private`, `False` on `ValueError`. -/
def is_private_ip (s : String) : Bool :=
  match ipNetwork s with
  | some n => n.isPrivate
  | none => false

/-- ip_utils.separate_ipv4_ipv6: append each valid entry to the IPv4 or
IPv6 list, silently skipping invalid entries. -/
def separate_ipv4_ipv6 : List String → List String × List String
  | [] => ([], [])
  | s :: rest =>
    let r := separate_ipv4_ipv6 rest
    if !is_valid_ip s then r
    else if is_ipv6 s then (r.1, s :: r.2)
    else (s :: r.1, r.2)

/-- ip_utils.separate_single_ips_and_ranges: split on presence of `/`. -/
def separate_single_ips_and_ranges : List String → List String × List String
  | [] => ([], [])
  | ip :: rest =>
    let r := separate_single_ips_and_ranges rest
    if '/' ∈ ip.data then (r.1, ip :: r.2) else (ip :: r.1, r.2)

/-- The sort key `ipaddress.ip_network(x, strict=False)` of ip_utils.sort_ip_list,
restricted to one address family: CPython network objects compare by
network address, then netmask, and the netmask integer is monotone in the
prefix length within a family.  Unparseable strings (which make the Python
key function raise) get a dummy key; sort_ip_list never sorts them with
this key. -/
def netKey (s : String) : Nat × Nat :=
  match ipNetwork s with
  | some n => (n.addr, n.plen)
  | none => (0, 0)

/-- Comparison by `netKey`, lexicographic. -/
def netLe (a b : String) : Prop :=
  (netKey a).1 < (netKey b).1 ∨ ((netKey a).1 = (netKey b).1 ∧ (netKey a).2 ≤ (netKey b).2)

instance : DecidableRel netLe := fun a b => by unfold netLe; infer_instance

instance : IsTotal String netLe := ⟨by intro a b; unfold netLe; omega⟩

instance : IsTrans String netLe := ⟨by intro a b c; unfold netLe; omega⟩

/-- Lexicographic comparison of code-point sequences, as Python compares
strings: at the first differing position the smaller code point wins, and
a proper prefix is smaller than the longer string. -/
def charListLe : List Char → List Char → Bool
  | [], _ => true
  | _ :: _, [] => false
  | a :: as, b :: bs => if a.toNat = b.toNat then charListLe as bs else decide (a.toNat < b.toNat)

/-- Python string comparison (lexicographic by code point), used by the
`sorted(ip_list)` fallback of sort_ip_list. -/
def strLe (a b : String) : Prop := charListLe a.data b.data = true

instance : DecidableRel strLe := fun a b =>
  inferInstanceAs (Decidable (charListLe a.data b.data = true))

instance : IsTotal String strLe := by
  constructor
  have h : ∀ x y : List Char, charListLe x y = true ∨ charListLe y x = true := by
    intro x
    induction x with
    | nil => intro y; left; rfl
    | cons a as ih =>
      intro y
      cases y with
      | nil => right; rfl
      | cons b bs =>
        simp only [charListLe]
        by_cases hab : a.toNat = b.toNat
        · rw [if_pos hab, if_pos hab.symm]; exact ih bs
        · rw [if_neg hab, if_neg (fun h2 => hab h2.symm)]
          rcases Nat.lt_or_ge a.toNat b.toNat with h2 | h2
          · left; exact decide_eq_true h2
          · right; exact decide_eq_true (by omega)
  intro a b
  exact h a.data b.data

instance : IsTrans String strLe := by
  constructor
  have h : ∀ x y z : List Char,
      charListLe x y = true → charListLe y z = true → charListLe x z = true := by
    intro x
    induction x with
    | nil => intro y z _ _; rfl
    | cons a as ih =>
      intro y z h1 h2
      cases y with
      | nil => simp [charListLe] at h1
      | cons b bs =>
        cases z with
        | nil => simp [charListLe] at h2
        | cons c cs =>
          simp only [charListLe] at h1 h2 ⊢
          by_cases hab : a.toNat = b.toNat <;> by_cases hbc : b.toNat = c.toNat
          · rw [if_pos hab] at h1; rw [if_pos hbc] at h2
            rw [if_pos (hab.trans hbc)]; exact ih bs cs h1 h2
          · rw [if_pos hab] at h1; rw [if_neg hbc] at h2
            have t2 := of_decide_eq_true h2
            rw [if_neg (by omega)]; exact decide_eq_true (by omega)
          · rw [if_neg hab] at h1; rw [if_pos hbc] at h2
            have t1 := of_decide_eq_true h1
            rw [if_neg (by omega)]; exact decide_eq_true (by omega)
          · rw [if_neg hab] at h1; rw [if_neg hbc] at h2
            have t1 := of_decide_eq_true h1
            have t2 := of_decide_eq_true h2
            rw [if_neg (by omega)]; exact decide_eq_true (by omega)
  intro a b c h1 h2
  exact h a.data b.data c.data h1 h2

/-- ip_utils.sort_ip_list: partition by is_ipv6 (in order), sort each side
by the parsed-network key, IPv4 first.  `sorted` computes the key of every
element, so the `except (ValueError, TypeError)` fallback to plain
`sorted(ip_list)` fires exactly when some entry is unparseable (such
entries land on the IPv4 side, since is_ipv6 is False for them). -/
def sort_ip_list (l : List String) : List String :=
  if l.all is_valid_ip then
    List.insertionSort netLe (l.filter fun s => !is_ipv6 s)
      ++ List.insertionSort netLe (l.filter fun s => is_ipv6 s)
  else
    List.insertionSort strLe l

/-- ip_utils.calculate_total_ips: sum `num_addresses` for IPv4 networks and
`num_addresses // 2**(128-64)` for IPv6 networks, skipping entries that
raise `ValueError`. -/
def calculate_total_ips (l : List String) : Nat :=
  l.foldl (fun total s =>
    match ipNetwork s with
    | some n => if n.isV6 then total + n.numAddresses / 2 ^ (128 - 64) else total + n.numAddresses
    | none => total) 0

/-- The per-entry contribution as the specification words it: a parseable
IPv4 network of prefix length p contributes `2^(32-p)`, an IPv6 network
contributes `floor(numAddresses / 2^64)`, anything unparseable contributes
nothing. -/
def specContribution (s : String) : Nat :=
  match ipNetwork s with
  | some n => if n.isV6 then n.numAddresses / 2 ^ 64 else 2 ^ (32 - n.plen)
  | none => 0

/-- The dictionary returned by ip_utils.calculate_detailed_stats. -/
structure DetailedStats where
  total : Nat
  ipv4_ranges : Nat
  ipv6_ranges : Nat
  ipv4_count : Nat
  ipv4_single : Nat
  ipv6_single : Nat
  ipv4_ranges_only : Nat
  ipv6_ranges_only : Nat
deriving Repr, DecidableEq

/-- ip_utils.calculate_detailed_stats. -/
def calculate_detailed_stats (all_ips all_ipv4 all_ipv6 : List String) : DetailedStats :=
  let s4 := separate_single_ips_and_ranges all_ipv4
  let s6 := separate_single_ips_and_ranges all_ipv6
  { total := all_ips.length
    ipv4_ranges := all_ipv4.length
    ipv6_ranges := all_ipv6.length
    ipv4_count := calculate_total_ips all_ipv4
    ipv4_single := s4.1.length
    ipv6_single := s6.1.length
    ipv4_ranges_only := s4.2.length
    ipv6_ranges_only := s6.2.length }

/-- One response body in CloudflareIP.download_data: strip the text, split
on newlines, strip each line, and keep non-empty lines passing is_valid_ip
(appended in order, with no deduplication). -/
def cloudflareParseText (text : String) : List String :=
  (pySplit '\n' (pyStrip text.data)).filterMap fun line =>
    let ip := pyStrip line
    if ip ≠ [] ∧ is_valid_ip (String.mk ip) then some (String.mk ip) else none

/-- CloudflareIP.download_data over the list of fetched response bodies. -/
def cloudflare_download_data (texts : List String) : List String :=
  texts.foldl (fun acc t => acc ++ cloudflareParseText t) []

/-- Python `set.add`, with the set modelled as a duplicate-free list in
insertion order (iteration order of a CPython set is abstracted away; only
membership matters to the callers). -/
def setAdd (l : List String) (x : String) : List String :=
  if x ∈ l then l else l ++ [x]

/-- The `all_ips` set built by AWSIP.extract_ips: every non-falsy
`ip_prefix` of the `prefixes` list, then every non-falsy `ipv6_prefix` of
the `ipv6_prefixes` list, added to one set (a missing key is modelled as
the empty string, which the `if not ip_prefix: continue` guard skips). -/
def aws_extract_all_ips (v4entries v6entries : List String) : List String :=
  let afterV4 := v4entries.foldl (fun acc p => if p = "" then acc else setAdd acc p) []
  v6entries.foldl (fun acc p => if p = "" then acc else setAdd acc p) afterV4

/-- The byte content written by ip_utils.write_ip_file with the default
`sort_ips=True`: each entry of the sorted list followed by one newline. -/
def write_ip_file_content (ip_list : List String) : String :=
  (sort_ip_list ip_list).foldl (fun acc ip => acc ++ ip ++ "\n") ""

/-- ip_utils.write_separated_ip_files, modelled as the list of
(path, content) pairs written: nothing for an empty input, a
`_single_{suffix}` file only when some entry has no `/`, a
`_ranges_{suffix}` file only when some entry has a `/`. -/
def write_separated_ip_files (base : String) (ip_list : List String) (suffix : String) :
    List (String × String) :=
  if ip_list = [] then []
  else
    let sep := separate_single_ips_and_ranges ip_list
    (if sep.1 ≠ [] then [(base ++ "_single_" ++ suffix ++ ".txt", write_ip_file_content sep.1)] else [])
      ++ (if sep.2 ≠ [] then [(base ++ "_ranges_" ++ suffix ++ ".txt", write_ip_file_content sep.2)] else [])

/-- Digit grouping of Python's `format(n, ',')`: a comma every three digits
from the right (input and output reversed). -/
def commaGroup : List Char → List Char
  | a :: b :: c :: d :: rest => a :: b :: c :: ',' :: commaGroup (d :: rest)
  | l => l

/-- Python `f"{n:,}"` for a natural number. -/
def fmtComma (n : Nat) : String :=
  String.mk ((commaGroup (Nat.repr n).data.reverse).reverse)

/-- Python tuple comparison on `dict.items()` pairs, as used by
`sorted(services.items())`: by key, then by count. -/
def snLe (a b : String × Nat) : Prop :=
  a.1 < b.1 ∨ (a.1 = b.1 ∧ a.2 ≤ b.2)

instance : DecidableRel snLe := fun a b => by unfold snLe; infer_instance

instance : IsTotal (String × Nat) snLe := by
  constructor
  intro a b
  unfold snLe
  rcases lt_trichotomy a.1 b.1 with h | h | h
  · exact Or.inl (Or.inl h)
  · rcases Nat.le_total a.2 b.2 with h2 | h2
    · exact Or.inl (Or.inr ⟨h, h2⟩)
    · exact Or.inr (Or.inr ⟨h.symm, h2⟩)
  · exact Or.inr (Or.inl h)

instance : IsTrans (String × Nat) snLe := by
  constructor
  intro a b c hab hbc
  unfold snLe at *
  rcases hab with h1 | ⟨e1, l1⟩
  · rcases hbc with h2 | ⟨e2, _⟩
    · exact Or.inl (lt_trans h1 h2)
    · exact Or.inl (e2 ▸ h1)
  · rcases hbc with h2 | ⟨e2, l2⟩
    · exact Or.inl (e1 ▸ h2)
    · exact Or.inr ⟨e1.trans e2, le_trans l1 l2⟩

instance : IsAntisymm (String × Nat) snLe := by
  constructor
  intro a b hab hba
  rcases hab with h1 | ⟨e1, l1⟩
  · rcases hba with h2 | ⟨e2, _⟩
    · exact absurd h2 (lt_asymm h1)
    · exact absurd (e2 ▸ h1) (lt_irrefl b.1)
  · rcases hba with h2 | ⟨e2, l2⟩
    · exact absurd (e1 ▸ h2) (lt_irrefl a.1)
    · exact Prod.ext e1 (Nat.le_antisymm l1 l2)

/-- The Services block of ip_utils.generate_index_markdown (Python's
`if services:` is false for both `None` and an empty dict; rows are
emitted in `sorted(services.items())` order). -/
def servicesSection (services : Option (List (String × Nat))) : String :=
  match services with
  | none => ""
  | some svc =>
    if svc = [] then ""
    else
      "## Services (" ++ Nat.repr svc.length ++ ")\n\n"
        ++ "| Service | IP Ranges |\n" ++ "|---------|----------:|\n"
        ++ (List.insertionSort snLe svc).foldl
            (fun acc kv => acc ++ "| " ++ kv.1 ++ " | " ++ fmtComma kv.2 ++ " |\n") ""
        ++ "\n"

/-- The Regions block of ip_utils.generate_index_markdown. -/
def regionsSection (regions : Option (List (String × Nat))) : String :=
  match regions with
  | none => ""
  | some reg =>
    if reg = [] then ""
    else
      "## Regions (" ++ Nat.repr reg.length ++ ")\n\n"
        ++ "| Region | IP Ranges |\n" ++ "|--------|----------:|\n"
        ++ (List.insertionSort snLe reg).foldl
            (fun acc kv => acc ++ "| " ++ kv.1 ++ " | " ++ fmtComma kv.2 ++ " |\n") ""
        ++ "\n"

/-- ip_utils.generate_index_markdown.  `now` stands for the
`datetime.utcnow()` timestamp used when `last_updated` is `None`; the
dictionaries are modelled as association lists in insertion order. -/
def generate_index_markdown (now provider_name : String)
    (total_ranges ipv4_ranges ipv6_ranges ipv4_count ipv6_count : Nat)
    (services regions : Option (List (String × Nat))) (last_updated : Option String)
    (ipv4_single ipv6_single ipv4_ranges_only ipv6_ranges_only : Option Nat) : String :=
  let lu := match last_updated with
    | some t => t
    | none => now
  "# " ++ provider_name ++ " IP Ranges\n\n"
    ++ "Last updated: " ++ lu ++ "\n\n"
    ++ "## Summary Statistics\n\n"
    ++ (match ipv4_single, ipv4_ranges_only with
        | some s4, some r4 =>
          "- **Total IPs/Ranges**: " ++ fmtComma total_ranges ++ "\n"
            ++ (if s4 > 0 then "- **IPv4 single IPs**: " ++ fmtComma s4 ++ "\n" else "")
            ++ (if r4 > 0 then
                  "- **IPv4 ranges**: " ++ fmtComma r4 ++ " (" ++ fmtComma ipv4_count ++ " addresses)\n"
                else "")
            ++ (match ipv6_single with
                | some s6 => if s6 > 0 then "- **IPv6 single IPs**: " ++ fmtComma s6 ++ "\n" else ""
                | none => "")
            ++ (match ipv6_ranges_only with
                | some r6 =>
                  if r6 > 0 then
                    "- **IPv6 ranges**: " ++ fmtComma r6 ++ " (" ++ fmtComma ipv6_count ++ " /64 subnets)\n"
                  else ""
                | none => "")
        | _, _ =>
          "- **Total IP ranges**: " ++ fmtComma total_ranges ++ "\n"
            ++ "- **IPv4 ranges**: " ++ fmtComma ipv4_ranges ++ " (" ++ fmtComma ipv4_count ++ " addresses)\n"
            ++ "- **IPv6 ranges**: " ++ fmtComma ipv6_ranges ++ " (" ++ fmtComma ipv6_count ++ " /64 subnets)\n")
    ++ "\n"
    ++ servicesSection services
    ++ regionsSection regions

/-- The result dictionary of main.run_provider. -/
structure JobOutcome where
  success : Bool
  error : Option String
  elapsed_time : Nat
deriving Repr, DecidableEq

/-- main.run_provider: the provider's whole try-block (collector
construction plus `generate_files`, both external collaborators) is
embedded as an `Except String Unit`; `Except.error e` stands for a raised
exception whose `str()` is `e`.  The `except Exception` handler converts
it into a failed outcome; nothing escapes to the caller. -/
def run_provider (body : Except String Unit) (elapsed : Nat) : JobOutcome :=
  match body with
  | Except.ok _ => { success := true, error := none, elapsed_time := elapsed }
  | Except.error e => { success := false, error := some e, elapsed_time := elapsed }

/-- The tail of main.main: `sys.exit(1)` iff some provider's result has
`success == False`, otherwise the process falls off the end (exit 0). -/
def main_exit_code (results : List (String × JobOutcome)) : Nat :=
  if results.any fun r => !r.2.success then 1 else 0

/-- The numeric network address of a parsed literal (0 for unparseable
strings, which never reach the numeric sort). -/
def networkAddressOf (s : String) : Nat :=
  match ipNetwork s with
  | some n => n.addr
  | none => 0

/-! ## Helper lemmas -/

theorem data_append (s t : String) : (s ++ t).data = s.data ++ t.data := rfl

theorem sort_ip_list_perm (l : List String) : List.Perm (sort_ip_list l) l := by
  unfold sort_ip_list
  by_cases h : l.all is_valid_ip = true
  · rw [if_pos h]
    have h1 := List.perm_insertionSort netLe (l.filter fun s => !is_ipv6 s)
    have h2 := List.perm_insertionSort netLe (l.filter fun s => is_ipv6 s)
    have h3 : List.Perm ((l.filter fun s => !is_ipv6 s) ++ (l.filter fun s => is_ipv6 s)) l := by
      have h4 := List.filter_append_perm (fun s => !is_ipv6 s) l
      simpa [Bool.not_not] using h4
    exact (h1.append h2).trans h3
  · rw [if_neg h]
    exact List.perm_insertionSort strLe l

theorem networkAddressOf_eq_fst_netKey (s : String) : networkAddressOf s = (netKey s).1 := by
  unfold networkAddressOf netKey
  cases ipNetwork s <;> rfl

theorem separate_single_ips_and_ranges_eq (l : List String) :
    separate_single_ips_and_ranges l =
      (l.filter fun s => !decide ('/' ∈ s.data), l.filter fun s => decide ('/' ∈ s.data)) := by
  induction l with
  | nil => rfl
  | cons ip rest ih =>
    simp only [separate_single_ips_and_ranges, ih, List.filter_cons]
    by_cases h : '/' ∈ ip.data
    · simp [h]
    · simp [h]

theorem write_fold_data (l : List String) (acc : String) :
    (l.foldl (fun acc ip => acc ++ ip ++ "\n") acc).data
      = acc.data ++ (l.map fun s => s.data ++ ['\n']).flatten := by
  induction l generalizing acc with
  | nil => simp
  | cons s rest ih =>
    simp only [List.foldl_cons, List.map_cons, List.flatten_cons]
    rw [ih]
    rw [show (acc ++ s ++ "\n").data = (acc.data ++ s.data) ++ ['\n'] from rfl]
    simp [List.append_assoc]

theorem count_join_lines (l : List String) (h : ∀ s ∈ l, '\n' ∉ s.data) :
    ((l.map fun s => s.data ++ ['\n']).flatten).count '\n' = l.length := by
  induction l with
  | nil => simp
  | cons s rest ih =>
    simp only [List.map_cons, List.flatten_cons, List.count_append, List.length_cons]
    have h1 : s.data.count '\n' = 0 := List.count_eq_zero.mpr (h s (by simp))
    have h2 := ih fun t ht => h t (by simp [ht])
    simp [h1, h2]
    omega

theorem write_ip_file_content_spec (l : List String) (h : ∀ s ∈ l, '\n' ∉ s.data)
    (hne : l ≠ []) :
    ∃ entries : List String, List.Perm entries l ∧ entries ≠ [] ∧
      (write_ip_file_content l).data = (entries.map fun s => s.data ++ ['\n']).flatten ∧
      (write_ip_file_content l).data.count '\n' = entries.length ∧
      write_ip_file_content l ≠ "" := by
  have hperm := sort_ip_list_perm l
  have hents : sort_ip_list l ≠ [] := by
    intro h0
    apply hne
    have hp2 : List.Perm ([] : List String) l := h0 ▸ hperm
    exact hp2.symm.eq_nil
  have hdata : (write_ip_file_content l).data
      = ((sort_ip_list l).map fun s => s.data ++ ['\n']).flatten := by
    unfold write_ip_file_content
    rw [write_fold_data]
    rfl
  refine ⟨sort_ip_list l, hperm, hents, hdata, ?_, ?_⟩
  · rw [hdata]
    exact count_join_lines _ fun s hs => h s (hperm.mem_iff.mp hs)
  · intro hc
    have hd : (write_ip_file_content l).data = [] := by rw [hc]
    rw [hdata] at hd
    cases hs : sort_ip_list l with
    | nil => exact hents hs
    | cons a as =>
      rw [hs] at hd
      exact absurd hd (by simp)

/-! ## Claim theorems -/

/-- C1: For every list of address strings, calculate_total_ips returns the
sum over parseable entries of the network's address count: an IPv4 network
of prefix length p contributes 2^(32-p), an IPv6 network contributes
floor(numAddresses / 2^64) (its count of covered /64 blocks), and in
particular the literal "2001:db8::/65" contributes exactly 0. -/
theorem calculate_total_ips_is_sum_of_contributions :
    (∀ l : List String, calculate_total_ips l = (l.map specContribution).sum) ∧
      specContribution "2001:db8::/65" = 0 := by
  constructor
  · have hstep : ∀ (acc : Nat) (s : String),
        (match ipNetwork s with
         | some n => if n.isV6 then acc + n.numAddresses / 2 ^ (128 - 64) else acc + n.numAddresses
         | none => acc) = acc + specContribution s := by
      intro acc s
      unfold specContribution
      cases hn : ipNetwork s with
      | none => simp
      | some n =>
        cases n with
        | mk v6 a pl =>
          cases v6 <;> simp [Net.numAddresses, Net.bits]
    have main : ∀ (l : List String) (acc : Nat),
        List.foldl (fun total s =>
          match ipNetwork s with
          | some n => if n.isV6 then total + n.numAddresses / 2 ^ (128 - 64) else total + n.numAddresses
          | none => total) acc l = acc + (l.map specContribution).sum := by
      intro l
      induction l with
      | nil => intro acc; simp
      | cons s rest ih =>
        intro acc
        simp only [List.foldl_cons, List.map_cons, List.sum_cons]
        rw [ih, hstep]
        omega
    intro l
    have h0 := main l 0
    unfold calculate_total_ips
    omega
  · decide

/-- C2 counterexample: CloudflareIP.download_data performs no
deduplication, so a fetched body with a repeated line hands two entries
that are byte-identical after trimming on to output writing and
statistics. -/
theorem cloudflare_download_retains_duplicates :
    cloudflare_download_data ["10.0.0.1\n10.0.0.1"] = ["10.0.0.1", "10.0.0.1"] ∧
      ¬ (cloudflare_download_data ["10.0.0.1\n10.0.0.1"]).Nodup := by
  exact ⟨by decide, by decide⟩

/-- C2 (amended): a source that collects into a Python set, as
AWSIP.extract_ips does, passes on a collection with no two byte-identical
entries; a source that appends lines to a plain list, as
CloudflareIP.download_data does, performs no deduplication and passes
repeated (trimmed) lines on unchanged. -/
theorem aws_extract_all_ips_nodup :
    ∀ v4entries v6entries : List String, (aws_extract_all_ips v4entries v6entries).Nodup := by
  have hAdd : ∀ (acc : List String) (x : String), acc.Nodup → (setAdd acc x).Nodup := by
    intro acc x h
    unfold setAdd
    by_cases hm : x ∈ acc
    · simp [hm, h]
    · simp [List.nodup_append, hm, h]
  have hFold : ∀ (l acc : List String), acc.Nodup →
      (l.foldl (fun acc p => if p = "" then acc else setAdd acc p) acc).Nodup := by
    intro l
    induction l with
    | nil => intro acc h; simpa using h
    | cons p rest ih =>
      intro acc h
      simp only [List.foldl_cons]
      by_cases hp : p = ""
      · rw [if_pos hp]; exact ih acc h
      · rw [if_neg hp]; exact ih _ (hAdd acc p h)
  intro v4 v6
  unfold aws_extract_all_ips
  exact hFold v6 _ (hFold v4 [] List.nodup_nil)

/-- C3: a raw string that fails address-literal parsing appears in neither
output list of separate_ipv4_ipv6, and running the cited pipeline
(Cloudflare-style line filtering, then separation, then
calculate_detailed_stats) on the input lines "not-an-ip" and "10.0.0.1"
reports total = 1. -/
theorem invalid_dropped_and_not_counted :
    (∀ (s : String) (l : List String), is_valid_ip s = false →
        s ∉ (separate_ipv4_ipv6 l).1 ∧ s ∉ (separate_ipv4_ipv6 l).2) ∧
      (calculate_detailed_stats (cloudflare_download_data ["not-an-ip\n10.0.0.1"])
          (separate_ipv4_ipv6 (cloudflare_download_data ["not-an-ip\n10.0.0.1"])).1
          (separate_ipv4_ipv6 (cloudflare_download_data ["not-an-ip\n10.0.0.1"])).2).total
        = 1 := by
  constructor
  · intro s l hs
    induction l with
    | nil => simp [separate_ipv4_ipv6]
    | cons t rest ih =>
      rcases ih with ⟨ih1, ih2⟩
      by_cases hv : is_valid_ip t = true
      · have hst : s ≠ t := by
          intro he
          rw [he] at hs
          rw [hs] at hv
          exact Bool.false_ne_true hv
        by_cases h6 : is_ipv6 t = true
        · simp [separate_ipv4_ipv6, hv, h6, hst, ih1, ih2]
        · simp [separate_ipv4_ipv6, hv, h6, hst, ih1, ih2]
      · have hv2 : is_valid_ip t = false := by
          rcases Bool.eq_false_or_eq_true (is_valid_ip t) with h | h
          · exact absurd h hv
          · exact h
        simp [separate_ipv4_ipv6, hv2, ih1, ih2]
  · decide

/-- C8 counterexample: an exception whose description is empty (such as
Python's `ValueError()`) yields a failed outcome whose error string is
empty, refuting the claimed non-empty error string. -/
theorem run_provider_empty_error_cex :
    (run_provider (Except.error "") 0).success = false ∧
      (run_provider (Except.error "") 0).error = some "" ∧
      ¬ (∃ msg, (run_provider (Except.error "") 0).error = some msg ∧ msg ≠ "") := by
  refine ⟨rfl, rfl, ?_⟩
  rintro ⟨msg, hm, hne⟩
  have h2 : some ("" : String) = some msg := hm
  exact hne (Option.some.inj h2).symm

/-- C8 (amended): any exception raised during a provider job is caught
inside run_provider and converted into an outcome with success = False,
the error field holding exactly the exception's description string (which
is non-empty whenever that description is), and the elapsed wall-clock
time; the exception is never propagated to the caller. -/
theorem run_provider_converts_exception :
    ∀ (e : String) (elapsed : Nat),
      run_provider (Except.error e) elapsed =
        { success := false, error := some e, elapsed_time := elapsed } :=
  fun _ _ => rfl

/-- C9: the orchestrator's process exit status is non-zero iff at least
one provider outcome has success = False. -/
theorem exit_code_nonzero_iff_failure :
    ∀ results : List (String × JobOutcome),
      main_exit_code results ≠ 0 ↔ ∃ p ∈ results, p.2.success = false := by
  intro results
  unfold main_exit_code
  cases h : results.any fun r => !r.2.success with
  | false =>
    simp only [Bool.false_eq_true, if_false]
    constructor
    · intro h0; exact absurd rfl h0
    · rintro ⟨p, hp, hs⟩
      have htrue : (results.any fun r => !r.2.success) = true :=
        List.any_eq_true.mpr ⟨p, hp, by simp [hs]⟩
      rw [h] at htrue
      exact absurd htrue Bool.false_ne_true
  | true =>
    simp only [if_true]
    constructor
    · intro _
      rcases List.any_eq_true.mp h with ⟨p, hp, hb⟩
      refine ⟨p, hp, ?_⟩
      revert hb
      cases p.2.success <;> simp
    · intro _
      exact one_ne_zero

/-- C10: the classification predicates are total and, on a string that is
not parseable as a network, is_valid_ip, is_ipv6 and is_private_ip all
return False (so such strings fall into callers' IPv4 branches and are
reported as not private). -/
theorem classification_total_on_invalid :
    ∀ s : String, ipNetwork s = none →
      is_valid_ip s = false ∧ is_ipv6 s = false ∧ is_private_ip s = false := by
  intro s h
  unfold is_valid_ip is_ipv6 is_private_ip
  rw [h]
  exact ⟨rfl, rfl, rfl⟩

/-- Witness for C3 at the concrete invalid literal "not-an-ip". -/
theorem invalid_dropped_witness :
    is_valid_ip "not-an-ip" = false ∧
      ("not-an-ip" ∉ (separate_ipv4_ipv6 ["not-an-ip", "10.0.0.1"]).1 ∧
        "not-an-ip" ∉ (separate_ipv4_ipv6 ["not-an-ip", "10.0.0.1"]).2) :=
  ⟨by decide, invalid_dropped_and_not_counted.1 "not-an-ip" ["not-an-ip", "10.0.0.1"] (by decide)⟩

/-- Witness for C10 at the concrete unparseable string "no-such-ip". -/
theorem classification_total_on_invalid_witness :
    ipNetwork "no-such-ip" = none ∧
      (is_valid_ip "no-such-ip" = false ∧ is_ipv6 "no-such-ip" = false ∧
        is_private_ip "no-such-ip" = false) :=
  ⟨by decide, classification_total_on_invalid "no-such-ip" (by decide)⟩

/-- C4: on a list of valid address literals, sort_ip_list returns a
permutation of the input consisting of the IPv4 entries first, sorted by
network address, followed by the IPv6 entries, sorted by network address. -/
theorem sort_ip_list_partitions_and_sorts :
    ∀ l : List String, (∀ s ∈ l, is_valid_ip s = true) →
      List.Perm (sort_ip_list l) l ∧
        ∃ A B, sort_ip_list l = A ++ B ∧
          (∀ s ∈ A, is_ipv6 s = false) ∧ (∀ s ∈ B, is_ipv6 s = true) ∧
          A.Pairwise (fun a b => networkAddressOf a ≤ networkAddressOf b) ∧
          B.Pairwise (fun a b => networkAddressOf a ≤ networkAddressOf b) := by
  intro l h
  have hall : l.all is_valid_ip = true := List.all_eq_true.mpr h
  refine ⟨sort_ip_list_perm l, List.insertionSort netLe (l.filter fun s => !is_ipv6 s),
    List.insertionSort netLe (l.filter fun s => is_ipv6 s), ?_, ?_, ?_, ?_, ?_⟩
  · unfold sort_ip_list
    rw [if_pos hall]
  · intro s hs
    have hm := (List.perm_insertionSort netLe _).mem_iff.mp hs
    have h2 := (List.mem_filter.mp hm).2
    revert h2
    cases is_ipv6 s <;> simp
  · intro s hs
    have hm := (List.perm_insertionSort netLe _).mem_iff.mp hs
    exact (List.mem_filter.mp hm).2
  · refine List.Pairwise.imp ?_ (List.sorted_insertionSort netLe (l.filter fun s => !is_ipv6 s))
    intro a b hab
    rw [networkAddressOf_eq_fst_netKey, networkAddressOf_eq_fst_netKey]
    unfold netLe at hab
    omega
  · refine List.Pairwise.imp ?_ (List.sorted_insertionSort netLe (l.filter fun s => is_ipv6 s))
    intro a b hab
    rw [networkAddressOf_eq_fst_netKey, networkAddressOf_eq_fst_netKey]
    unfold netLe at hab
    omega

/-- Witness for C4 on a concrete mixed list of valid literals. -/
theorem sort_ip_list_partitions_witness :
    (∀ s ∈ ["192.168.0.0/16", "2001:db8::/32", "10.0.0.0/8"], is_valid_ip s = true) ∧
      (List.Perm (sort_ip_list ["192.168.0.0/16", "2001:db8::/32", "10.0.0.0/8"])
          ["192.168.0.0/16", "2001:db8::/32", "10.0.0.0/8"] ∧
        ∃ A B, sort_ip_list ["192.168.0.0/16", "2001:db8::/32", "10.0.0.0/8"] = A ++ B ∧
          (∀ s ∈ A, is_ipv6 s = false) ∧ (∀ s ∈ B, is_ipv6 s = true) ∧
          A.Pairwise (fun a b => networkAddressOf a ≤ networkAddressOf b) ∧
          B.Pairwise (fun a b => networkAddressOf a ≤ networkAddressOf b)) :=
  ⟨by decide,
    sort_ip_list_partitions_and_sorts ["192.168.0.0/16", "2001:db8::/32", "10.0.0.0/8"]
      (by decide)⟩

/-- C5: sort_ip_list never raises; when some entry is unparseable, it falls
back to returning the whole list sorted lexicographically (by code point,
the Python string order). -/
theorem sort_ip_list_fallback_lexicographic :
    ∀ l : List String, (∃ s ∈ l, is_valid_ip s = false) →
      List.Perm (sort_ip_list l) l ∧ List.Sorted strLe (sort_ip_list l) := by
  intro l h
  have hall : l.all is_valid_ip = false := by
    rcases h with ⟨s, hsl, hv⟩
    rcases Bool.eq_false_or_eq_true (l.all is_valid_ip) with h2 | h2
    · have h3 := List.all_eq_true.mp h2 s hsl
      rw [hv] at h3
      exact absurd h3 Bool.false_ne_true
    · exact h2
  refine ⟨sort_ip_list_perm l, ?_⟩
  unfold sort_ip_list
  rw [hall]
  simp only [Bool.false_eq_true, if_false]
  exact List.sorted_insertionSort strLe l

/-- Witness for C5 on a concrete list containing an unparseable entry. -/
theorem sort_ip_list_fallback_witness :
    (∃ s ∈ ["10.0.0.2", "not-an-ip", "10.0.0.1"], is_valid_ip s = false) ∧
      (List.Perm (sort_ip_list ["10.0.0.2", "not-an-ip", "10.0.0.1"])
          ["10.0.0.2", "not-an-ip", "10.0.0.1"] ∧
        List.Sorted strLe (sort_ip_list ["10.0.0.2", "not-an-ip", "10.0.0.1"])) :=
  ⟨by decide,
    sort_ip_list_fallback_lexicographic ["10.0.0.2", "not-an-ip", "10.0.0.1"] (by decide)⟩

/-- C6: for a non-empty input of (non-empty, newline-free) entries,
write_separated_ip_files writes the `_single_{suffix}` file iff some entry
contains no '/', and the `_ranges_{suffix}` file iff some entry contains
'/'; the `_single_{suffix}` file consists of exactly the no-'/' entries
and the `_ranges_{suffix}` file of exactly the '/'-bearing entries: each
written file is non-empty and its content renders a permutation (the
sorted order) of precisely its corresponding entries, one per line, each
line closed by exactly one newline, so there is no header and no blank
line, trailing or otherwise. -/
theorem write_separated_ip_files_spec :
    ∀ (base suffix : String) (l : List String), l ≠ [] →
      (∀ s ∈ l, s ≠ "" ∧ '\n' ∉ s.data) →
      ((∃ c, (base ++ "_single_" ++ suffix ++ ".txt", c) ∈ write_separated_ip_files base l suffix)
          ↔ ∃ s ∈ l, '/' ∉ s.data) ∧
      ((∃ c, (base ++ "_ranges_" ++ suffix ++ ".txt", c) ∈ write_separated_ip_files base l suffix)
          ↔ ∃ s ∈ l, '/' ∈ s.data) ∧
      (∀ c, (base ++ "_single_" ++ suffix ++ ".txt", c) ∈ write_separated_ip_files base l suffix →
        c ≠ "" ∧
          ∃ entries : List String,
            List.Perm entries (l.filter fun s => !decide ('/' ∈ s.data)) ∧ entries ≠ [] ∧
            (∀ e ∈ entries, e ∈ l ∧ e ≠ "" ∧ '\n' ∉ e.data) ∧
            c.data = (entries.map fun s => s.data ++ ['\n']).flatten ∧
            c.data.count '\n' = entries.length) ∧
      (∀ c, (base ++ "_ranges_" ++ suffix ++ ".txt", c) ∈ write_separated_ip_files base l suffix →
        c ≠ "" ∧
          ∃ entries : List String,
            List.Perm entries (l.filter fun s => decide ('/' ∈ s.data)) ∧ entries ≠ [] ∧
            (∀ e ∈ entries, e ∈ l ∧ e ≠ "" ∧ '\n' ∉ e.data) ∧
            c.data = (entries.map fun s => s.data ++ ['\n']).flatten ∧
            c.data.count '\n' = entries.length) := by
  intro base suffix l hne hwf
  have hout : write_separated_ip_files base l suffix =
      (if (l.filter fun s => !decide ('/' ∈ s.data)) ≠ [] then
        [(base ++ "_single_" ++ suffix ++ ".txt",
          write_ip_file_content (l.filter fun s => !decide ('/' ∈ s.data)))] else [])
      ++ (if (l.filter fun s => decide ('/' ∈ s.data)) ≠ [] then
        [(base ++ "_ranges_" ++ suffix ++ ".txt",
          write_ip_file_content (l.filter fun s => decide ('/' ∈ s.data)))] else []) := by
    unfold write_separated_ip_files
    rw [if_neg hne, separate_single_ips_and_ranges_eq]
  have hpath : (base ++ "_single_" ++ suffix ++ ".txt" : String)
      ≠ base ++ "_ranges_" ++ suffix ++ ".txt" := by
    intro hEq
    have hd := congrArg String.data hEq
    rw [show (base ++ "_single_" ++ suffix ++ ".txt").data
          = base.data ++ ("_single_".data ++ (suffix.data ++ ".txt".data)) from by
        simp [data_append, List.append_assoc]] at hd
    rw [show (base ++ "_ranges_" ++ suffix ++ ".txt").data
          = base.data ++ ("_ranges_".data ++ (suffix.data ++ ".txt".data)) from by
        simp [data_append, List.append_assoc]] at hd
    have h2 := List.append_cancel_left hd
    have hl : ("_single_".data : List Char).length = "_ranges_".data.length := by decide
    have h3 := (List.append_inj h2 hl).1
    exact absurd h3 (by decide)
  have hsingle_iff : (l.filter fun s => !decide ('/' ∈ s.data)) ≠ [] ↔ ∃ s ∈ l, '/' ∉ s.data := by
    constructor
    · intro hne2
      by_contra hex
      push_neg at hex
      apply hne2
      apply List.filter_eq_nil_iff.mpr
      intro a ha
      simp [hex a ha]
    · rintro ⟨s, hsl, hns⟩ hnil
      have hmem : s ∈ l.filter fun s => !decide ('/' ∈ s.data) :=
        List.mem_filter.mpr ⟨hsl, by simp [hns]⟩
      rw [hnil] at hmem
      exact absurd hmem (List.not_mem_nil s)
  have hranges_iff : (l.filter fun s => decide ('/' ∈ s.data)) ≠ [] ↔ ∃ s ∈ l, '/' ∈ s.data := by
    constructor
    · intro hne2
      by_contra hex
      push_neg at hex
      apply hne2
      apply List.filter_eq_nil_iff.mpr
      intro a ha
      simp [hex a ha]
    · rintro ⟨s, hsl, hns⟩ hnil
      have hmem : s ∈ l.filter fun s => decide ('/' ∈ s.data) :=
        List.mem_filter.mpr ⟨hsl, by simp [hns]⟩
      rw [hnil] at hmem
      exact absurd hmem (List.not_mem_nil s)
  have hcontent : ∀ m : List String, m ≠ [] → (∀ e ∈ m, e ∈ l) →
      write_ip_file_content m ≠ "" ∧
        ∃ entries : List String, List.Perm entries m ∧ entries ≠ [] ∧
          (∀ e ∈ entries, e ∈ l ∧ e ≠ "" ∧ '\n' ∉ e.data) ∧
          (write_ip_file_content m).data = (entries.map fun s => s.data ++ ['\n']).flatten ∧
          (write_ip_file_content m).data.count '\n' = entries.length := by
    intro m hmne hml
    have hwfm : ∀ s ∈ m, '\n' ∉ s.data := fun s hs => (hwf s (hml s hs)).2
    rcases write_ip_file_content_spec m hwfm hmne with ⟨entries, hperm, hene, hdata, hcount, hnemp⟩
    refine ⟨hnemp, entries, hperm, hene, ?_, hdata, hcount⟩
    intro e he
    have hel : e ∈ l := hml e (hperm.subset he)
    exact ⟨hel, (hwf e hel).1, (hwf e hel).2⟩
  have hnonboth : (l.filter fun s => !decide ('/' ∈ s.data)) ≠ [] ∨
      (l.filter fun s => decide ('/' ∈ s.data)) ≠ [] := by
    rcases List.exists_mem_of_ne_nil l hne with ⟨s, hsl⟩
    by_cases hslash : '/' ∈ s.data
    · right
      exact hranges_iff.mpr ⟨s, hsl, hslash⟩
    · left
      exact hsingle_iff.mpr ⟨s, hsl, hslash⟩
  by_cases h1 : (l.filter fun s => !decide ('/' ∈ s.data)) = []
  · by_cases h2 : (l.filter fun s => decide ('/' ∈ s.data)) = []
    · rcases hnonboth with hb | hb
      · exact absurd h1 hb
      · exact absurd h2 hb
    · rw [hout, if_neg (by simpa using h1), if_pos h2, List.nil_append]
      refine ⟨?_, ?_, ?_, ?_⟩
      · constructor
        · rintro ⟨c, hc⟩
          have hpc := List.mem_singleton.mp hc
          exact absurd (congrArg Prod.fst hpc) hpath
        · intro hex
          exact absurd (hsingle_iff.mpr hex) (by simpa using h1)
      · constructor
        · intro _
          exact hranges_iff.mp h2
        · intro _
          exact ⟨_, List.mem_singleton.mpr rfl⟩
      · intro c hc
        have hpc := List.mem_singleton.mp hc
        exact absurd (congrArg Prod.fst hpc) hpath
      · intro c hc
        have hpc := List.mem_singleton.mp hc
        have hcc : c = write_ip_file_content (l.filter fun s => decide ('/' ∈ s.data)) :=
          congrArg Prod.snd hpc
        rw [hcc]
        exact hcontent _ h2 fun e he => (List.mem_filter.mp he).1
  · by_cases h2 : (l.filter fun s => decide ('/' ∈ s.data)) = []
    · rw [hout, if_pos h1, if_neg (by simpa using h2), List.append_nil]
      refine ⟨?_, ?_, ?_, ?_⟩
      · constructor
        · intro _
          exact hsingle_iff.mp h1
        · intro _
          exact ⟨_, List.mem_singleton.mpr rfl⟩
      · constructor
        · rintro ⟨c, hc⟩
          have hpc := List.mem_singleton.mp hc
          exact absurd (congrArg Prod.fst hpc).symm hpath
        · intro hex
          exact absurd (hranges_iff.mpr hex) (by simpa using h2)
      · intro c hc
        have hpc := List.mem_singleton.mp hc
        have hcc : c = write_ip_file_content (l.filter fun s => !decide ('/' ∈ s.data)) :=
          congrArg Prod.snd hpc
        rw [hcc]
        exact hcontent _ h1 fun e he => (List.mem_filter.mp he).1
      · intro c hc
        have hpc := List.mem_singleton.mp hc
        exact absurd (congrArg Prod.fst hpc).symm hpath
    · rw [hout, if_pos h1, if_pos h2]
      refine ⟨?_, ?_, ?_, ?_⟩
      · constructor
        · intro _
          exact hsingle_iff.mp h1
        · intro _
          exact ⟨_, List.mem_append.mpr (Or.inl (List.mem_singleton.mpr rfl))⟩
      · constructor
        · intro _
          exact hranges_iff.mp h2
        · intro _
          exact ⟨_, List.mem_append.mpr (Or.inr (List.mem_singleton.mpr rfl))⟩
      · intro c hc
        rcases List.mem_append.mp hc with hin | hin
        · have hpc := List.mem_singleton.mp hin
          have hcc : c = write_ip_file_content (l.filter fun s => !decide ('/' ∈ s.data)) :=
            congrArg Prod.snd hpc
          rw [hcc]
          exact hcontent _ h1 fun e he => (List.mem_filter.mp he).1
        · have hpc := List.mem_singleton.mp hin
          exact absurd (congrArg Prod.fst hpc) hpath
      · intro c hc
        rcases List.mem_append.mp hc with hin | hin
        · have hpc := List.mem_singleton.mp hin
          exact absurd (congrArg Prod.fst hpc).symm hpath
        · have hpc := List.mem_singleton.mp hin
          have hcc : c = write_ip_file_content (l.filter fun s => decide ('/' ∈ s.data)) :=
            congrArg Prod.snd hpc
          rw [hcc]
          exact hcontent _ h2 fun e he => (List.mem_filter.mp he).1

/-- Witness for C6 on a concrete mixed single/range input. -/
theorem write_separated_ip_files_witness :
    (["10.0.0.1", "10.0.0.0/8"] : List String) ≠ [] ∧
      (∀ s ∈ ["10.0.0.1", "10.0.0.0/8"], s ≠ "" ∧ '\n' ∉ s.data) ∧
      (((∃ c, ("p_single_all.txt", c) ∈ write_separated_ip_files "p" ["10.0.0.1", "10.0.0.0/8"] "all")
          ↔ ∃ s ∈ ["10.0.0.1", "10.0.0.0/8"], '/' ∉ s.data) ∧
        ((∃ c, ("p_ranges_all.txt", c) ∈ write_separated_ip_files "p" ["10.0.0.1", "10.0.0.0/8"] "all")
          ↔ ∃ s ∈ ["10.0.0.1", "10.0.0.0/8"], '/' ∈ s.data) ∧
        (∀ c, ("p_single_all.txt", c) ∈ write_separated_ip_files "p" ["10.0.0.1", "10.0.0.0/8"] "all" →
          c ≠ "" ∧
            ∃ entries : List String,
              List.Perm entries (["10.0.0.1", "10.0.0.0/8"].filter fun s => !decide ('/' ∈ s.data)) ∧
              entries ≠ [] ∧
              (∀ e ∈ entries, e ∈ ["10.0.0.1", "10.0.0.0/8"] ∧ e ≠ "" ∧ '\n' ∉ e.data) ∧
              c.data = (entries.map fun s => s.data ++ ['\n']).flatten ∧
              c.data.count '\n' = entries.length) ∧
        (∀ c, ("p_ranges_all.txt", c) ∈ write_separated_ip_files "p" ["10.0.0.1", "10.0.0.0/8"] "all" →
          c ≠ "" ∧
            ∃ entries : List String,
              List.Perm entries (["10.0.0.1", "10.0.0.0/8"].filter fun s => decide ('/' ∈ s.data)) ∧
              entries ≠ [] ∧
              (∀ e ∈ entries, e ∈ ["10.0.0.1", "10.0.0.0/8"] ∧ e ≠ "" ∧ '\n' ∉ e.data) ∧
              c.data = (entries.map fun s => s.data ++ ['\n']).flatten ∧
              c.data.count '\n' = entries.length)) :=
  ⟨by decide, by decide,
    write_separated_ip_files_spec "p" "all" ["10.0.0.1", "10.0.0.0/8"] (by decide) (by decide)⟩

theorem insertionSort_snLe_eq_of_perm (l₁ l₂ : List (String × Nat)) (h : List.Perm l₁ l₂) :
    List.insertionSort snLe l₁ = List.insertionSort snLe l₂ :=
  List.eq_of_perm_of_sorted
    ((List.perm_insertionSort snLe l₁).trans (h.trans (List.perm_insertionSort snLe l₂).symm))
    (List.sorted_insertionSort snLe l₁) (List.sorted_insertionSort snLe l₂)

theorem servicesSection_perm (l₁ l₂ : List (String × Nat)) (h : List.Perm l₁ l₂) :
    servicesSection (some l₁) = servicesSection (some l₂) := by
  simp only [servicesSection]
  by_cases hnil : l₁ = []
  · have hnil2 : l₂ = [] := by
      rw [hnil] at h
      exact h.symm.eq_nil
    rw [hnil, hnil2]
  · have hnil2 : l₂ ≠ [] := by
      intro h0
      rw [h0] at h
      exact hnil h.eq_nil
    rw [if_neg hnil, if_neg hnil2, insertionSort_snLe_eq_of_perm l₁ l₂ h, h.length_eq]

theorem regionsSection_perm (l₁ l₂ : List (String × Nat)) (h : List.Perm l₁ l₂) :
    regionsSection (some l₁) = regionsSection (some l₂) := by
  simp only [regionsSection]
  by_cases hnil : l₁ = []
  · have hnil2 : l₂ = [] := by
      rw [hnil] at h
      exact h.symm.eq_nil
    rw [hnil, hnil2]
  · have hnil2 : l₂ ≠ [] := by
      intro h0
      rw [h0] at h
      exact hnil h.eq_nil
    rw [if_neg hnil, if_neg hnil2, insertionSort_snLe_eq_of_perm l₁ l₂ h, h.length_eq]

/-- C7: generate_index_markdown is deterministic: two calls with identical
arguments (same supplied timestamp; the Services and Regions dictionaries
given in any insertion order, i.e. as permuted association lists) render
byte-identical documents, and the table rows are sorted alphabetically by
key. -/
theorem generate_index_markdown_deterministic :
    ∀ (now provider : String) (tr i4r i6r i4c i6c : Nat)
      (s₁ s₂ r₁ r₂ : List (String × Nat)) (t : String) (a b c d : Option Nat),
      List.Perm s₁ s₂ → List.Perm r₁ r₂ →
      (generate_index_markdown now provider tr i4r i6r i4c i6c (some s₁) (some r₁) (some t) a b c d
        = generate_index_markdown now provider tr i4r i6r i4c i6c (some s₂) (some r₂) (some t) a b c d) ∧
      (List.insertionSort snLe s₁).Pairwise (fun x y => x.1 ≤ y.1) ∧
      (List.insertionSort snLe r₁).Pairwise (fun x y => x.1 ≤ y.1) := by
  intro now provider tr i4r i6r i4c i6c s₁ s₂ r₁ r₂ t a b c d hs hr
  refine ⟨?_, ?_, ?_⟩
  · unfold generate_index_markdown
    rw [servicesSection_perm s₁ s₂ hs, regionsSection_perm r₁ r₂ hr]
  · refine List.Pairwise.imp ?_ (List.sorted_insertionSort snLe s₁)
    intro x y hxy
    rcases hxy with hlt | ⟨heq, _⟩
    · exact le_of_lt hlt
    · exact le_of_eq heq
  · refine List.Pairwise.imp ?_ (List.sorted_insertionSort snLe r₁)
    intro x y hxy
    rcases hxy with hlt | ⟨heq, _⟩
    · exact le_of_lt hlt
    · exact le_of_eq heq

/-- Witness for C7 on concrete dictionaries given in two insertion orders. -/
theorem generate_index_markdown_deterministic_witness :
    List.Perm [("ec2", 3), ("s3", 1)] [("s3", 1), ("ec2", 3)] ∧
      List.Perm [("us-east-1", 2), ("eu-west-3", 2)] [("eu-west-3", 2), ("us-east-1", 2)] ∧
      ((generate_index_markdown "now" "AWS" 4 3 1 1024 16
          (some [("ec2", 3), ("s3", 1)]) (some [("us-east-1", 2), ("eu-west-3", 2)])
          (some "2024-01-01 00:00:00 UTC") (some 1) (some 0) (some 2) (some 1)
        = generate_index_markdown "now" "AWS" 4 3 1 1024 16
          (some [("s3", 1), ("ec2", 3)]) (some [("eu-west-3", 2), ("us-east-1", 2)])
          (some "2024-01-01 00:00:00 UTC") (some 1) (some 0) (some 2) (some 1)) ∧
        (List.insertionSort snLe [("ec2", 3), ("s3", 1)]).Pairwise (fun x y => x.1 ≤ y.1) ∧
        (List.insertionSort snLe [("us-east-1", 2), ("eu-west-3", 2)]).Pairwise
          (fun x y => x.1 ≤ y.1)) :=
  ⟨by decide, by decide,
    generate_index_markdown_deterministic "now" "AWS" 4 3 1 1024 16
      [("ec2", 3), ("s3", 1)] [("s3", 1), ("ec2", 3)]
      [("us-east-1", 2), ("eu-west-3", 2)] [("eu-west-3", 2), ("us-east-1", 2)]
      "2024-01-01 00:00:00 UTC" (some 1) (some 0) (some 2) (some 1)
      (by decide) (by decide)⟩
